import Mathlib

/-!
# Verification of the nextjs-gtm consent core

A shallow embedding of the consent store (`src/consent-manager.ts`) and the
geo policy lookup (`src/geo-utils.ts`) of the OurFires/nextjs-gtm package,
with proofs about the embedded operations.

Modelling conventions:
* `document.cookie` is modelled as a jar `List (String × String)` of
  name/value pairs; assigning `document.cookie = "name=value; ..."` is the
  browser overwrite-or-append operation on that jar, and reading a cookie
  value reproduces the code's `split("; ")` / `startsWith(name + "=")` /
  `split("=")[1]` extraction: the extracted value is the stored value
  truncated at its first `=` character.
* `encodeURIComponent` / `decodeURIComponent` are implemented byte-wise
  (percent-encoding of UTF-8 bytes, with the standard unreserved set).
* `JSON.stringify` on a `ConsentState` produces the canonical object text in
  field-declaration order; `JSON.parse` followed by the unchecked
  `as ConsentState` cast is modelled by a parser of exactly that shape,
  and a `JSON.parse` exception is modelled by the parser returning `none`.
* Subscriber callbacks (a JS `Set` of functions) are identified by `Nat`
  ids; a `CallbackEnv` says which callback throws on which record.
  `Set.forEach` iterates in insertion order and a thrown exception stops
  the iteration and propagates, which the embedding reproduces.
* `typeof window === "undefined"` is the `hasWindow` flag of the state.
-/

/-- The `ConsentState` interface of `src/types.ts`. -/
structure ConsentState where
  necessary : Bool
  analytics : Bool
  marketing : Bool
  preferences : Bool
  timestamp : Nat
deriving DecidableEq, Repr

/-- The Google Consent Mode v2 parameter object pushed to the dataLayer
(`consentParams` in `updateGoogleConsentMode`). -/
structure GcmPayload where
  ad_storage : String
  ad_user_data : String
  ad_personalization : String
  analytics_storage : String
  functionality_storage : String
  personalization_storage : String
  security_storage : String
deriving DecidableEq, Repr

/-- The consent-mode mapping of `updateGoogleConsentMode`
(src/consent-manager.ts lines 160-168). -/
def consentParams (consent : ConsentState) : GcmPayload :=
  { ad_storage := if consent.marketing then "granted" else "denied"
    ad_user_data := if consent.marketing then "granted" else "denied"
    ad_personalization := if consent.marketing then "granted" else "denied"
    analytics_storage := if consent.analytics then "granted" else "denied"
    functionality_storage := if consent.preferences then "granted" else "denied"
    personalization_storage := if consent.preferences then "granted" else "denied"
    security_storage := "granted" }

/-- An event object appended to `window.dataLayer`. -/
structure DLEvent where
  event : String
  consent : GcmPayload
deriving DecidableEq, Repr

/-! ## Geo utilities (`src/geo-utils.ts`) -/

/-- `REGULATED_COUNTRIES.GDPR` (src/geo-utils.ts lines 52-81). -/
def GDPR_COUNTRIES : List String :=
  ["AT", "BE", "BG", "HR", "CY", "CZ", "DK", "EE", "FI", "FR", "DE", "GR",
   "HU", "IE", "IT", "LV", "LT", "LU", "MT", "NL", "PL", "PT", "RO", "SK",
   "SI", "ES", "SE", "GB"]

/-- `REGULATED_COUNTRIES.LGPD` (Brazil). -/
def LGPD_COUNTRIES : List String := ["BR"]

/-- `REGULATED_COUNTRIES.PIPEDA` (Canada). -/
def PIPEDA_COUNTRIES : List String := ["CA"]

/-- `REGULATED_COUNTRIES.POPIA` (South Africa). -/
def POPIA_COUNTRIES : List String := ["ZA"]

/-- `ALL_REGULATED_COUNTRIES` (src/geo-utils.ts lines 109-114): the
concatenation of the GDPR, LGPD, PIPEDA and POPIA lists. -/
def ALL_REGULATED_COUNTRIES : List String :=
  GDPR_COUNTRIES ++ LGPD_COUNTRIES ++ PIPEDA_COUNTRIES ++ POPIA_COUNTRIES

/-- One entry of `REGULATED_REGIONS`: a country with a list of regulated
sub-national regions. -/
structure RegionRule where
  country : String
  regions : List String
deriving DecidableEq, Repr

/-- `REGULATED_REGIONS` (src/geo-utils.ts lines 119-132): currently only
CCPA (California, US). -/
def REGULATED_REGIONS : List RegionRule :=
  [{ country := "US", regions := ["CA"] }]

/-- `isRegulatedRegion` (src/geo-utils.ts lines 163-183). `none` models a
JS `undefined` argument; `!country` is falsy for both `undefined` and the
empty string, and `region || ""` replaces a falsy region by `""`. The
`for ... return true` loop over `REGULATED_REGIONS` is `List.any`. -/
def isRegulatedRegion (country region : Option String) : Bool :=
  match country with
  | none => true
  | some c =>
    if c = "" then true
    else if ALL_REGULATED_COUNTRIES.contains c then true
    else REGULATED_REGIONS.any fun regulation =>
      regulation.country = c &&
        regulation.regions.contains
          (match region with
           | none => ""
           | some r => if r = "" then "" else r)

/-! ## The cookie jar (`document.cookie`) -/

/-- A browser cookie jar: `document.cookie` as name/value pairs. -/
abbrev CookieJar := List (String × String)

/-- Looking a cookie up by name: the code's
`document.cookie.split("; ").find(c => c.startsWith(name + "="))`,
returning the stored value of the first (only) cookie with that name. -/
def getCookie (name : String) (jar : CookieJar) : Option String :=
  (jar.find? fun p => p.1 = name).map Prod.snd

/-- Assigning `document.cookie = name + "=" + value + "; ..."`: the browser
overwrites the cookie of that name if present, else appends it. -/
def setCookie (name value : String) (jar : CookieJar) : CookieJar :=
  if jar.any fun p => p.1 = name then
    jar.map fun p => if p.1 = name then (name, value) else p
  else jar ++ [(name, value)]

/-- `("name=" + v).split("=")[1]`: the stored value truncated at its first
`=` character (the whole value when it contains no `=`). -/
def cookieSplitValue (v : String) : String :=
  (v.toList.takeWhile fun c => c != '=').asString

/-- `checkGeoConsent` (src/geo-utils.ts lines 27-42). `hasDocument` models
the `typeof document === "undefined"` SSR guard; a missing cookie defaults
to `true`; otherwise the result is `split("=")[1] === "1"`. -/
def checkGeoConsent (hasDocument : Bool) (jar : CookieJar) : Bool :=
  if !hasDocument then true
  else
    match getCookie "geo-needs-consent" jar with
    | none => true
    | some v => cookieSplitValue v == "1"

/-- The region-policy classification exactly as §4.2 of the spec words it:
absent/empty country means regulated; else membership of the flat
country-level set; else some sub-national rule whose country matches and
whose region list contains the region (empty string when absent). -/
def specIsRegulated (country region : Option String) : Bool :=
  match country with
  | none => true
  | some c =>
    if c = "" then true
    else if c ∈ ALL_REGULATED_COUNTRIES then true
    else decide (∃ rule ∈ REGULATED_REGIONS,
      rule.country = c ∧ (region.getD "") ∈ rule.regions)

/-! ## Percent-encoding (`encodeURIComponent` / `decodeURIComponent`) -/

/-- Upper-case hex digit for a nibble, as `encodeURIComponent` produces. -/
def hexDigitChar (n : Nat) : Char :=
  if n < 10 then Char.ofNat (48 + n) else Char.ofNat (55 + n)

/-- Value of a hex digit character (either case), `none` otherwise. -/
def hexVal (c : Char) : Option Nat :=
  if 48 ≤ c.toNat ∧ c.toNat ≤ 57 then some (c.toNat - 48)
  else if 65 ≤ c.toNat ∧ c.toNat ≤ 70 then some (c.toNat - 55)
  else if 97 ≤ c.toNat ∧ c.toNat ≤ 102 then some (c.toNat - 87)
  else none

/-- The UTF-8 byte sequence of a character. -/
def utf8Bytes (c : Char) : List Nat :=
  if c.toNat < 128 then [c.toNat]
  else if c.toNat < 2048 then [192 + c.toNat / 64, 128 + c.toNat % 64]
  else if c.toNat < 65536 then
    [224 + c.toNat / 4096, 128 + c.toNat / 64 % 64, 128 + c.toNat % 64]
  else
    [240 + c.toNat / 262144, 128 + c.toNat / 4096 % 64, 128 + c.toNat / 64 % 64,
     128 + c.toNat % 64]

/-- The characters `encodeURIComponent` leaves unescaped:
letters, digits and `- _ . ! ~ * ' ( )`. -/
def uriUnreserved (c : Char) : Bool :=
  c.isAlpha || c.isDigit ||
  c == '-' || c == '_' || c == '.' || c == '!' || c == '~' ||
  c == '*' || c == '\'' || c == '(' || c == ')'

/-- The three-character escape `%XY` of one byte. -/
def percentByte (b : Nat) : List Char :=
  ['%', hexDigitChar (b / 16), hexDigitChar (b % 16)]

/-- `encodeURIComponent`, character by character: unreserved characters are
kept, every other character is replaced by the percent-escapes of its UTF-8
bytes. -/
def uriEncodeChars : List Char → List Char
  | [] => []
  | c :: rest =>
    (if uriUnreserved c then [c] else (utf8Bytes c).flatMap percentByte) ++
      uriEncodeChars rest

/-- `encodeURIComponent` on strings. -/
def encodeURIComponent (s : String) : String :=
  (uriEncodeChars s.toList).asString

/-- First phase of `decodeURIComponent`: turn the text back into a byte
sequence, reading `%XY` escapes; a malformed or truncated escape is a
`URIError`, modelled as `none`. A literal character contributes its own
UTF-8 bytes. -/
def uriDecodeBytes : List Char → Option (List Nat)
  | [] => some []
  | c :: rest =>
    if c = '%' then
      match rest with
      | h1 :: h2 :: rest2 =>
        match hexVal h1, hexVal h2 with
        | some v1, some v2 => (uriDecodeBytes rest2).map ((16 * v1 + v2) :: ·)
        | _, _ => none
      | _ => none
    else (uriDecodeBytes rest).map (utf8Bytes c ++ ·)

/-- Second phase of `decodeURIComponent`: UTF-8 decoding. One step:
decode the leading UTF-8 sequence of the byte list, returning the
character and the remaining bytes; invalid UTF-8 is `none`. As with the
real `decodeURIComponent`'s `URIError`, stray continuation bytes,
truncated sequences, overlong encodings (the code-point lower bounds per
sequence length), surrogate code points and code points above 0x10FFFF
(both via `isValidChar`) are all rejected. -/
def utf8DecodeOne : List Nat → Option (Char × List Nat)
  | [] => none
  | b :: rest =>
    if b < 128 then some (Char.ofNat b, rest)
    else if b < 192 then none
    else if b < 224 then
      match rest with
      | b2 :: rest2 =>
        if 194 ≤ b ∧ 128 ≤ b2 ∧ b2 < 192 then
          some (Char.ofNat ((b - 192) * 64 + (b2 - 128)), rest2)
        else none
      | [] => none
    else if b < 240 then
      match rest with
      | b2 :: b3 :: rest3 =>
        if 128 ≤ b2 ∧ b2 < 192 ∧ 128 ≤ b3 ∧ b3 < 192 ∧
            2048 ≤ (b - 224) * 4096 + (b2 - 128) * 64 + (b3 - 128) ∧
            ((b - 224) * 4096 + (b2 - 128) * 64 + (b3 - 128)).isValidChar then
          some (Char.ofNat ((b - 224) * 4096 + (b2 - 128) * 64 + (b3 - 128)),
                rest3)
        else none
      | _ => none
    else
      match rest with
      | b2 :: b3 :: b4 :: rest4 =>
        if b < 245 ∧ 128 ≤ b2 ∧ b2 < 192 ∧ 128 ≤ b3 ∧ b3 < 192 ∧
            128 ≤ b4 ∧ b4 < 192 ∧
            65536 ≤ (b - 240) * 262144 + (b2 - 128) * 4096 + (b3 - 128) * 64 +
              (b4 - 128) ∧
            ((b - 240) * 262144 + (b2 - 128) * 4096 + (b3 - 128) * 64 +
              (b4 - 128)).isValidChar then
          some (Char.ofNat ((b - 240) * 262144 + (b2 - 128) * 4096 +
                  (b3 - 128) * 64 + (b4 - 128)), rest4)
        else none
      | _ => none

/-- Decode a whole byte list; the fuel (at least the list length, since
each step consumes at least one byte) keeps the recursion structural. -/
def utf8DecodeLoop : Nat → List Nat → Option (List Char)
  | _, [] => some []
  | 0, _ :: _ => none
  | fuel + 1, bs =>
    match utf8DecodeOne bs with
    | none => none
    | some (c, rest) => (utf8DecodeLoop fuel rest).map (c :: ·)

/-- Full UTF-8 decoding of a byte list (`none` on invalid UTF-8). -/
def utf8Decode (bs : List Nat) : Option (List Char) :=
  utf8DecodeLoop bs.length bs

/-- `decodeURIComponent` on strings (`none` models a thrown `URIError`). -/
def decodeURIComponent (s : String) : Option String :=
  match uriDecodeBytes s.toList with
  | none => none
  | some bs => (utf8Decode bs).map List.asString

/-! ## JSON serialization of a `ConsentState`

`JSON.stringify` on a `ConsentState` object produces the object text with
the interface's fields in declaration order; `JSON.parse` followed by the
unchecked `as ConsentState` cast is modelled by a parser of exactly that
canonical shape, with a parse exception modelled as `none`. -/

/-- `JSON.stringify` of a boolean. -/
def boolChars (b : Bool) : List Char :=
  if b then "true".toList else "false".toList

/-- The little-endian decimal digits of `n`, with an explicit fuel bound so
that the definition is structurally recursive (`fuel ≥ n` gives all
digits). -/
def toDigitsRev (fuel n : Nat) : List Nat :=
  match fuel with
  | 0 => []
  | fuel + 1 => if n = 0 then [] else n % 10 :: toDigitsRev fuel (n / 10)

/-- `JSON.stringify` of a natural number: its decimal digits. -/
def natToChars (n : Nat) : List Char :=
  if n = 0 then "0".toList
  else (toDigitsRev n n).reverse.map fun d => Char.ofNat (48 + d)

/-- `JSON.stringify(finalConsent)` (src/consent-manager.ts line 61): the
object text `{"necessary":…,"analytics":…,"marketing":…,"preferences":…,
"timestamp":…}`. -/
def charsOfConsent (c : ConsentState) : List Char :=
  "\x7b\"necessary\":".toList ++ boolChars c.necessary ++
  ",\"analytics\":".toList ++ boolChars c.analytics ++
  ",\"marketing\":".toList ++ boolChars c.marketing ++
  ",\"preferences\":".toList ++ boolChars c.preferences ++
  ",\"timestamp\":".toList ++ natToChars c.timestamp ++
  "\x7d".toList

/-- `JSON.stringify` of a `ConsentState`, as a string. -/
def stringifyConsent (c : ConsentState) : String :=
  (charsOfConsent c).asString

/-- Consume an expected literal prefix, returning the remainder. -/
def expectChars : List Char → List Char → Option (List Char)
  | [], l => some l
  | _ :: _, [] => none
  | p :: ps, c :: cs => if c = p then expectChars ps cs else none

/-- Parse a JSON boolean literal. -/
def parseBoolChars (l : List Char) : Option (Bool × List Char) :=
  match expectChars "true".toList l with
  | some rest => some (true, rest)
  | none =>
    match expectChars "false".toList l with
    | some rest => some (false, rest)
    | none => none

/-- Parse a decimal natural number (one or more digits). -/
def parseNatChars (l : List Char) : Option (Nat × List Char) :=
  let digs := l.takeWhile Char.isDigit
  if digs.isEmpty then none
  else some (digs.foldl (fun acc c => 10 * acc + (c.toNat - 48)) 0,
             l.dropWhile Char.isDigit)

/-- `JSON.parse` restricted to the canonical `ConsentState` object text —
exactly the values the store itself writes, which is all the write-path
properties need; any other input is `none`. The source's cast
`as ConsentState` does no runtime validation, so on arbitrary stored
values `JSON.parse` has the dynamic, validation-free semantics modelled
separately by `jsonParse` below. -/
def parseConsentChars (l : List Char) : Option ConsentState := do
  let l ← expectChars "\x7b\"necessary\":".toList l
  let (nec, l) ← parseBoolChars l
  let l ← expectChars ",\"analytics\":".toList l
  let (ana, l) ← parseBoolChars l
  let l ← expectChars ",\"marketing\":".toList l
  let (mar, l) ← parseBoolChars l
  let l ← expectChars ",\"preferences\":".toList l
  let (pref, l) ← parseBoolChars l
  let l ← expectChars ",\"timestamp\":".toList l
  let (ts, l) ← parseNatChars l
  let l ← expectChars "\x7d".toList l
  if l.isEmpty then
    some { necessary := nec, analytics := ana, marketing := mar,
           preferences := pref, timestamp := ts }
  else none

/-- `parseConsentChars` on a string: the record-typed restriction of
`JSON.parse(...) as ConsentState` to canonical record text. -/
def parseConsent (s : String) : Option ConsentState :=
  parseConsentChars s.toList

/-- The decode pipeline of `getConsent` applied to a stored cookie value
(src/consent-manager.ts lines 36-43) — `split("=")[1]`, then
`decodeURIComponent`, then `JSON.parse`, any thrown error caught as
`none` — in its record-typed restriction to canonical record text (the
values the store writes). The faithful dynamic pipeline over arbitrary
stored values is `decodeConsentValueJs` below. -/
def decodeConsentValue (v : String) : Option ConsentState :=
  (decodeURIComponent (cookieSplitValue v)).bind parseConsent

/-! ## The `ConsentManager` (`src/consent-manager.ts`)

The manager together with the ambient browser state it touches.
Subscriber callbacks (elements of the JS `Set<ConsentEventHandler>`) are
identified by `Nat` ids; the `Set` is its list of elements in insertion
order, without duplicates. A `CallbackEnv` fixes the behaviour of every
callback: whether it throws when invoked with a given record. -/

/-- The mutable state of a `ConsentManager` instance plus the ambient
browser state (`document.cookie`, `window.dataLayer`); `hasWindow` is the
`typeof window === "undefined"` capability check. -/
structure ManagerState where
  hasWindow : Bool
  cookieName : String
  cookieExpiry : Nat
  subscribers : List Nat
  jar : CookieJar
  dataLayer : List DLEvent
deriving DecidableEq, Repr

/-- The constructor (src/consent-manager.ts lines 18-22): `||`-defaulting
of the cookie name (`"user_consent"`) and expiry (365), empty subscriber
set. -/
def mkConsentManager (hasWindow : Bool) (cookieName : Option String)
    (cookieExpiry : Option Nat) (jar : CookieJar)
    (dataLayer : List DLEvent) : ManagerState :=
  { hasWindow := hasWindow
    cookieName :=
      match cookieName with
      | none => "user_consent"
      | some n => if n = "" then "user_consent" else n
    cookieExpiry :=
      match cookieExpiry with
      | none => 365
      | some e => if e = 0 then 365 else e
    subscribers := []
    jar := jar
    dataLayer := dataLayer }

/-- The behaviour of the callback functions: `throws id rec` is true when
callback `id`, invoked with record `rec`, throws an exception. -/
structure CallbackEnv where
  throws : Nat → ConsentState → Bool

/-- One observable side effect of a write, in the order it happens:
a cookie persist, a dataLayer signal, or a subscriber invocation. -/
inductive SEvent where
  | persist (name value : String)
  | signal (e : DLEvent)
  | invoke (id : Nat) (record : ConsentState)
deriving DecidableEq, Repr

/-- The record actually stored by `setConsent`
(src/consent-manager.ts lines 54-58): the input with `necessary` forced to
`true` and `timestamp` stamped with `Date.now()`. -/
def finalConsentOf (consent : ConsentState) (now : Nat) : ConsentState :=
  { consent with necessary := true, timestamp := now }

/-- The `consent_update` dataLayer event
(src/consent-manager.ts lines 171-174). -/
def consentUpdateEvent (consent : ConsentState) : DLEvent :=
  { event := "consent_update", consent := consentParams consent }

/-- `updateGoogleConsentMode` (src/consent-manager.ts lines 153-175):
pushes the `consent_update` event onto the dataLayer. -/
def updateGoogleConsentMode (st : ManagerState) (consent : ConsentState) :
    ManagerState :=
  if !st.hasWindow then st
  else { st with dataLayer := st.dataLayer ++ [consentUpdateEvent consent] }

/-- `initializeGoogleConsentMode` (src/consent-manager.ts lines 181-200):
pushes the all-denied (except `security_storage`) `consent_default`
event. -/
def initializeGoogleConsentMode (st : ManagerState) : ManagerState :=
  if !st.hasWindow then st
  else
    { st with dataLayer := st.dataLayer ++
        [{ event := "consent_default"
           consent :=
             { ad_storage := "denied", ad_user_data := "denied"
               ad_personalization := "denied", analytics_storage := "denied"
               functionality_storage := "denied"
               personalization_storage := "denied"
               security_storage := "granted" } }] }

/-- `this.subscribers.forEach((callback) => callback(finalConsent))`
(src/consent-manager.ts line 71): callbacks run in insertion order; a
callback that throws is still invoked, but stops the iteration and the
exception propagates (there is no try/catch). Returns the invocation
events in order and whether an exception escaped. -/
def notifySubscribers (env : CallbackEnv) (subs : List Nat)
    (record : ConsentState) : List SEvent × Bool :=
  match subs with
  | [] => ([], false)
  | id :: rest =>
    if env.throws id record then ([SEvent.invoke id record], true)
    else
      let (evs, threw) := notifySubscribers env rest record
      (SEvent.invoke id record :: evs, threw)

/-- `setConsent` (src/consent-manager.ts lines 50-72). Produces the new
state, the ordered list of observable side effects, and whether a
subscriber exception propagated to the caller. The steps, in source
order: build `finalConsent`, persist the encoded record in the cookie,
push the `consent_update` event, notify subscribers. -/
def setConsent (env : CallbackEnv) (st : ManagerState)
    (consent : ConsentState) (now : Nat) :
    ManagerState × List SEvent × Bool :=
  if !st.hasWindow then (st, [], false)
  else
    let finalConsent := finalConsentOf consent now
    let encoded := encodeURIComponent (stringifyConsent finalConsent)
    let st1 := { st with jar := setCookie st.cookieName encoded st.jar }
    let st2 := updateGoogleConsentMode st1 finalConsent
    let notified := notifySubscribers env st.subscribers finalConsent
    (st2,
     SEvent.persist st.cookieName encoded
       :: SEvent.signal (consentUpdateEvent finalConsent)
       :: notified.1,
     notified.2)

/-- `getConsent` (src/consent-manager.ts lines 28-44), together with
whether the `catch` branch logged a parse error (`console.error`), in
its record-typed restriction (stored value decodable as a canonical
record, or failing). Absent window, absent cookie, and a value whose
decode throws all yield `null`; only the decode failure logs. The
faithful dynamic version over arbitrary stored values — where the
unchecked `as ConsentState` cast returns whatever valid JSON parsed —
is `getConsentJsWithLog` below. -/
def getConsentWithLog (st : ManagerState) : Option ConsentState × Bool :=
  if !st.hasWindow then (none, false)
  else
    match getCookie st.cookieName st.jar with
    | none => (none, false)
    | some v =>
      match decodeConsentValue v with
      | none => (none, true)
      | some c => (some c, false)

/-- `getConsent`: the returned value alone. -/
def getConsent (st : ManagerState) : Option ConsentState :=
  (getConsentWithLog st).1

/-- `hasConsent` (src/consent-manager.ts lines 78-80):
`getConsent() !== null`. -/
def hasConsent (st : ManagerState) : Bool :=
  (getConsent st).isSome

/-- `hasAnalyticsConsent` (lines 86-89): `consent?.analytics === true`. -/
def hasAnalyticsConsent (st : ManagerState) : Bool :=
  match getConsent st with
  | some c => c.analytics
  | none => false

/-- `hasMarketingConsent` (lines 95-98): `consent?.marketing === true`. -/
def hasMarketingConsent (st : ManagerState) : Bool :=
  match getConsent st with
  | some c => c.marketing
  | none => false

/-- `hasPreferencesConsent` (lines 104-107):
`consent?.preferences === true`. -/
def hasPreferencesConsent (st : ManagerState) : Bool :=
  match getConsent st with
  | some c => c.preferences
  | none => false

/-- `acceptAll` (src/consent-manager.ts lines 112-120). -/
def acceptAll (env : CallbackEnv) (st : ManagerState) (now : Nat) :
    ManagerState × List SEvent × Bool :=
  setConsent env st
    { necessary := true, analytics := true, marketing := true,
      preferences := true, timestamp := now } now

/-- `rejectAll` (src/consent-manager.ts lines 125-133). -/
def rejectAll (env : CallbackEnv) (st : ManagerState) (now : Nat) :
    ManagerState × List SEvent × Bool :=
  setConsent env st
    { necessary := true, analytics := false, marketing := false,
      preferences := false, timestamp := now } now

/-- `subscribe` (src/consent-manager.ts lines 140-147): `Set.add`, which
is keyed by callback identity, so adding an already-present callback does
nothing. -/
def subscribe (st : ManagerState) (id : Nat) : ManagerState :=
  if st.subscribers.contains id then st
  else { st with subscribers := st.subscribers ++ [id] }

/-- The unsubscribe handle returned by `subscribe`:
`() => this.subscribers.delete(callback)`, i.e. `Set.delete` of that
callback. -/
def unsubscribe (st : ManagerState) (id : Nat) : ManagerState :=
  { st with subscribers := st.subscribers.filter (· != id) }

/-! ## Concrete sample data for instantiating the theorems -/

/-- A sample input record (note `necessary := false`: the store must
force it back to `true`). -/
def sampleConsent : ConsentState :=
  { necessary := false, analytics := true, marketing := false,
    preferences := true, timestamp := 0 }

/-- A sample browser-side manager with two subscribers. -/
def sampleState : ManagerState :=
  { hasWindow := true, cookieName := "user_consent", cookieExpiry := 365,
    subscribers := [0, 1], jar := [], dataLayer := [] }

/-- A sample browser-side manager with no subscribers. -/
def emptyState : ManagerState :=
  { hasWindow := true, cookieName := "user_consent", cookieExpiry := 365,
    subscribers := [], jar := [], dataLayer := [] }

/-- A sample manager whose stored cookie value is not decodable. -/
def malformedState : ManagerState :=
  { hasWindow := true, cookieName := "user_consent", cookieExpiry := 365,
    subscribers := [], jar := [("user_consent", "garbage")], dataLayer := [] }

/-- A callback environment in which no callback ever throws. -/
def quietEnv : CallbackEnv := { throws := fun _ _ => false }

/-- A callback environment in which exactly callback `0` throws. -/
def throwingEnv : CallbackEnv := { throws := fun id _ => id == 0 }

/-! ## Dynamic JSON values and the real `JSON.parse`

The source's `JSON.parse(decoded) as ConsentState` performs no runtime
validation: the cast is compile-time only, so `getConsent` returns
whatever JSON value parsed. This section models that faithfully: a `Json`
value type, a parser for the full JSON grammar, and the dynamic variants
of `getConsent` and the accessors.

Representation choices (they affect only which value a junk input maps
to, never whether parsing succeeds): a JSON number is carried as its
source numeral (nothing in the program compares numbers — the accessors
only test `=== true` and nullness); a JSON string is carried with its
escape sequences unresolved, which in particular accepts lone-surrogate
`\u` escapes exactly as `JSON.parse` does. -/

/-- A JavaScript JSON value, as produced by `JSON.parse`. -/
inductive Json where
  | null
  | bool (b : Bool)
  | num (raw : String)
  | str (raw : String)
  | arr (elems : List Json)
  | obj (fields : List (String × Json))

/-- Whether a JSON value is the JavaScript `null`. -/
def Json.isNull : Json → Bool
  | Json.null => true
  | _ => false

/-- JSON insignificant whitespace. -/
def jsonWs (c : Char) : Bool :=
  c == ' ' || c == '\t' || c == '\n' || c == '\r'

/-- Skip insignificant whitespace. -/
def skipJsonWs (l : List Char) : List Char :=
  l.dropWhile jsonWs

/-- Parse a JSON string body (after the opening quote): the raw content
up to the closing quote, validating escape syntax (`\" \\ \/ \b \f \n \r
\t` and `\u` plus four hex digits) and rejecting unescaped control
characters, as `JSON.parse` does. -/
def parseStringBody : List Char → Option (List Char × List Char)
  | [] => none
  | c :: rest =>
    if c = '"' then some ([], rest)
    else if c = '\\' then
      match rest with
      | e :: rest2 =>
        if e = 'u' then
          match rest2 with
          | h1 :: h2 :: h3 :: h4 :: rest3 =>
            if (hexVal h1).isSome && (hexVal h2).isSome &&
                (hexVal h3).isSome && (hexVal h4).isSome then
              (parseStringBody rest3).map fun p =>
                ('\\' :: 'u' :: h1 :: h2 :: h3 :: h4 :: p.1, p.2)
            else none
          | _ => none
        else if e = '"' || e = '\\' || e = '/' || e = 'b' || e = 'f' ||
            e = 'n' || e = 'r' || e = 't' then
          (parseStringBody rest2).map fun p => ('\\' :: e :: p.1, p.2)
        else none
      | [] => none
    else if c.toNat < 32 then none
    else (parseStringBody rest).map fun p => (c :: p.1, p.2)

/-- One or more decimal digits. -/
def parseDigitRun (l : List Char) : Option (List Char × List Char) :=
  let ds := l.takeWhile Char.isDigit
  if ds.isEmpty then none else some (ds, l.dropWhile Char.isDigit)

/-- The integer part of a JSON number: `0`, or a nonzero digit followed
by digits (no leading zeros). -/
def parseIntPart : List Char → Option (List Char × List Char)
  | [] => none
  | c :: rest =>
    if c = '0' then some (['0'], rest)
    else if c.isDigit then
      some (c :: rest.takeWhile Char.isDigit, rest.dropWhile Char.isDigit)
    else none

/-- The optional fraction part of a JSON number. -/
def parseFracPart (l : List Char) : Option (List Char × List Char) :=
  match l with
  | '.' :: rest =>
    match parseDigitRun rest with
    | some (ds, r) => some ('.' :: ds, r)
    | none => none
  | _ => some ([], l)

/-- The optional exponent part of a JSON number. -/
def parseExpPart (l : List Char) : Option (List Char × List Char) :=
  match l with
  | c :: rest =>
    if c = 'e' || c = 'E' then
      match rest with
      | s :: rest2 =>
        if s = '+' || s = '-' then
          match parseDigitRun rest2 with
          | some (ds, r) => some (c :: s :: ds, r)
          | none => none
        else
          match parseDigitRun rest with
          | some (ds, r) => some (c :: ds, r)
          | none => none
      | [] => none
    else some ([], c :: rest)
  | [] => some ([], [])

/-- A JSON number token: `-? (0 | [1-9][0-9]*) frac? exp?`. -/
def parseNumberToken (l : List Char) : Option (List Char × List Char) :=
  let signed : List Char × List Char :=
    match l with
    | '-' :: rest => (['-'], rest)
    | _ => ([], l)
  match parseIntPart signed.2 with
  | none => none
  | some (ip, l2) =>
    match parseFracPart l2 with
    | none => none
    | some (fp, l3) =>
      match parseExpPart l3 with
      | none => none
      | some (ep, l4) => some (signed.1 ++ ip ++ fp ++ ep, l4)

mutual

/-- A JSON value, with leading whitespace. The fuel only bounds the
recursion so that it stays structural (and hence kernel-evaluable):
every recursive call follows the consumption of at least one input
character except the element/member loops' handoff to the value parser,
so `2 * length + 8` fuel is enough for every input and the fuel never
changes which inputs parse. -/
def parseJsonValue : Nat → List Char → Option (Json × List Char)
  | 0, _ => none
  | fuel + 1, l =>
    match skipJsonWs l with
    | [] => none
    | c :: rest =>
      if c = '"' then
        match parseStringBody rest with
        | some (sraw, r) => some (Json.str sraw.asString, r)
        | none => none
      else if c = '\x7b' then
        match skipJsonWs rest with
        | '\x7d' :: r => some (Json.obj [], r)
        | _ => parseJsonMembers fuel rest []
      else if c = '[' then
        match skipJsonWs rest with
        | ']' :: r => some (Json.arr [], r)
        | _ => parseJsonElems fuel rest []
      else if c = 't' then
        match expectChars "rue".toList rest with
        | some r => some (Json.bool true, r)
        | none => none
      else if c = 'f' then
        match expectChars "alse".toList rest with
        | some r => some (Json.bool false, r)
        | none => none
      else if c = 'n' then
        match expectChars "ull".toList rest with
        | some r => some (Json.null, r)
        | none => none
      else
        match parseNumberToken (c :: rest) with
        | some (tok, r) => some (Json.num tok.asString, r)
        | none => none

/-- The elements of a JSON array (after `[`, at least one element). -/
def parseJsonElems : Nat → List Char → List Json → Option (Json × List Char)
  | 0, _, _ => none
  | fuel + 1, l, acc =>
    match parseJsonValue fuel l with
    | none => none
    | some (j, r) =>
      match skipJsonWs r with
      | ',' :: r2 => parseJsonElems fuel r2 (acc ++ [j])
      | ']' :: r2 => some (Json.arr (acc ++ [j]), r2)
      | _ => none

/-- The members of a JSON object (after the opening brace, at least one
member). -/
def parseJsonMembers : Nat → List Char → List (String × Json) →
    Option (Json × List Char)
  | 0, _, _ => none
  | fuel + 1, l, acc =>
    match skipJsonWs l with
    | '"' :: rest =>
      match parseStringBody rest with
      | some (nraw, r) =>
        match skipJsonWs r with
        | ':' :: r2 =>
          match parseJsonValue fuel r2 with
          | some (j, r3) =>
            match skipJsonWs r3 with
            | ',' :: r4 => parseJsonMembers fuel r4 (acc ++ [(nraw.asString, j)])
            | '\x7d' :: r4 => some (Json.obj (acc ++ [(nraw.asString, j)]), r4)
            | _ => none
          | none => none
        | _ => none
      | none => none
    | _ => none

end

/-- `JSON.parse`: a full-grammar JSON parser; a thrown `SyntaxError`
(invalid JSON, including trailing garbage) is modelled as `none`. -/
def jsonParse (s : String) : Option Json :=
  match parseJsonValue (2 * s.toList.length + 8) s.toList with
  | some (j, rest) => if (skipJsonWs rest).isEmpty then some j else none
  | none => none

/-- Dynamic property access `v.name` on a parsed JSON value: `undefined`
(`none`) on anything but an object; on an object, the last binding of
the name, since `JSON.parse` keeps the last duplicate key. -/
def jsonField (j : Json) (name : String) : Option Json :=
  match j with
  | Json.obj fields => (fields.reverse.find? fun p => p.1 = name).map Prod.snd
  | _ => none

/-- The dynamic test `v === true`: the value is the boolean `true`. -/
def isTrueJson : Option Json → Bool
  | some (Json.bool true) => true
  | _ => false

/-- The decode pipeline of `getConsent` over an arbitrary stored cookie
value, with the source's dynamic semantics: `split("=")[1]`, then
`decodeURIComponent`, then `JSON.parse` — no shape validation at all
(the `as ConsentState` cast is compile-time only); `none` models a
thrown (and caught) error. -/
def decodeConsentValueJs (v : String) : Option Json :=
  match decodeURIComponent (cookieSplitValue v) with
  | none => none
  | some s => jsonParse s

/-- `getConsent` (src/consent-manager.ts lines 28-44) with the source's
dynamic semantics, plus whether the `catch` branch logged
(`console.error`). Any valid JSON value is returned as parsed; only a
thrown decode error is caught, logged and turned into `null`. A stored
`"null"` parses to the JavaScript `null`, indistinguishable from the
absent/caught result, hence the `isNull` collapse. -/
def getConsentJsWithLog (st : ManagerState) : Option Json × Bool :=
  if !st.hasWindow then (none, false)
  else
    match getCookie st.cookieName st.jar with
    | none => (none, false)
    | some v =>
      match decodeConsentValueJs v with
      | none => (none, true)
      | some j => if j.isNull then (none, false) else (some j, false)

/-- Dynamic `getConsent`: the returned value alone. -/
def getConsentJs (st : ManagerState) : Option Json :=
  (getConsentJsWithLog st).1

/-- Dynamic `hasConsent`: `getConsent() !== null`. -/
def hasConsentJs (st : ManagerState) : Bool :=
  (getConsentJs st).isSome

/-- Dynamic `hasAnalyticsConsent`: `consent?.analytics === true`. -/
def hasAnalyticsConsentJs (st : ManagerState) : Bool :=
  match getConsentJs st with
  | some j => isTrueJson (jsonField j "analytics")
  | none => false

/-- Dynamic `hasMarketingConsent`: `consent?.marketing === true`. -/
def hasMarketingConsentJs (st : ManagerState) : Bool :=
  match getConsentJs st with
  | some j => isTrueJson (jsonField j "marketing")
  | none => false

/-- Dynamic `hasPreferencesConsent`: `consent?.preferences === true`. -/
def hasPreferencesConsentJs (st : ManagerState) : Bool :=
  match getConsentJs st with
  | some j => isTrueJson (jsonField j "preferences")
  | none => false

/-- A sample manager whose stored cookie value `\x7b"a":1\x7d` is valid
JSON but not a `ConsentRecord`. -/
def junkState : ManagerState :=
  { hasWindow := true, cookieName := "user_consent", cookieExpiry := 365,
    subscribers := [], jar := [("user_consent", "\x7b\"a\":1\x7d")],
    dataLayer := [] }

theorem isRegulatedRegion_agrees_spec :
    ∀ country region, isRegulatedRegion country region = specIsRegulated country region := by
  intro country region
  cases country with
  | none => rfl
  | some c =>
    have hreg : (match region with | none => "" | some r => if r = "" then "" else r)
        = region.getD "" := by
      cases region with
      | none => rfl
      | some r => by_cases h : r = "" <;> simp [h]
    simp only [isRegulatedRegion, specIsRegulated, hreg]
    by_cases hc : c = ""
    · simp [hc]
    · simp only [hc, if_false]
      by_cases hm : c ∈ ALL_REGULATED_COUNTRIES
      · simp [hm, List.elem_iff]
      · simp only [List.elem_iff, hm, if_false]
        rw [Bool.eq_iff_iff]
        simp [List.any_eq_true, List.elem_iff]


/-! ## Supporting lemmas: decimal digits and the JSON parser -/

theorem toDigitsRev_eq_digits (fuel n : Nat) (h : n ≤ fuel) :
    toDigitsRev fuel n = Nat.digits 10 n := by
  induction fuel generalizing n with
  | zero =>
    interval_cases n
    simp [toDigitsRev]
  | succ fuel ih =>
    by_cases hn : n = 0
    · simp [toDigitsRev, hn]
    · rw [toDigitsRev, if_neg hn,
        Nat.digits_def' (by norm_num : (1:Nat) < 10) (Nat.pos_of_ne_zero hn),
        ih (n / 10) (by omega)]

theorem digitChar_toNat (d : Nat) (h : d < 10) :
    (Char.ofNat (48 + d)).toNat = 48 + d := by
  interval_cases d <;> decide

theorem digitChar_isDigit (d : Nat) (h : d < 10) :
    (Char.ofNat (48 + d)).isDigit = true := by
  interval_cases d <;> decide

theorem natToChars_all_digits (n : Nat) :
    ∀ c ∈ natToChars n, c.isDigit = true := by
  intro c hc
  unfold natToChars at hc
  by_cases hn : n = 0
  · simp [hn] at hc
    simp [hc]
  · rw [if_neg hn, toDigitsRev_eq_digits n n le_rfl] at hc
    obtain ⟨d, hd, rfl⟩ := List.mem_map.mp hc
    exact digitChar_isDigit d
      (Nat.digits_lt_base (by norm_num) (List.mem_reverse.mp hd))

theorem natToChars_ne_nil (n : Nat) : natToChars n ≠ [] := by
  unfold natToChars
  by_cases hn : n = 0
  · simp [hn]
  · rw [if_neg hn, toDigitsRev_eq_digits n n le_rfl]
    simp [Nat.digits_ne_nil_iff_ne_zero.mpr hn]

theorem foldl_decimal (L : List Nat) (acc : Nat) :
    L.foldl (fun a d => 10 * a + d) acc =
      acc * 10 ^ L.length + Nat.ofDigits 10 L.reverse := by
  induction L generalizing acc with
  | nil => simp [Nat.ofDigits]
  | cons d L ih =>
    rw [List.foldl_cons, ih, List.reverse_cons, Nat.ofDigits_append]
    simp [Nat.ofDigits]
    ring

theorem foldl_digitChar (L : List Nat) (acc : Nat) (h : ∀ d ∈ L, d < 10) :
    (L.map fun d => Char.ofNat (48 + d)).foldl
        (fun a c => 10 * a + (c.toNat - 48)) acc =
      L.foldl (fun a d => 10 * a + d) acc := by
  induction L generalizing acc with
  | nil => rfl
  | cons d L ih =>
    simp only [List.map_cons, List.foldl_cons]
    rw [digitChar_toNat d (h d (by simp))]
    have h48 : 48 + d - 48 = d := by omega
    rw [h48]
    exact ih _ fun x hx => h x (by simp [hx])

theorem natToChars_foldl (n : Nat) :
    (natToChars n).foldl (fun acc c => 10 * acc + (c.toNat - 48)) 0 = n := by
  by_cases hn : n = 0
  · subst hn
    decide
  · unfold natToChars
    rw [if_neg hn, toDigitsRev_eq_digits n n le_rfl,
      foldl_digitChar _ 0
        (fun d hd => Nat.digits_lt_base (by norm_num) (List.mem_reverse.mp hd)),
      foldl_decimal, List.reverse_reverse]
    simp [Nat.ofDigits_digits]

theorem takeWhile_append_all (p : Char → Bool) (l1 l2 : List Char)
    (h : ∀ c ∈ l1, p c = true) :
    (l1 ++ l2).takeWhile p = l1 ++ l2.takeWhile p := by
  induction l1 with
  | nil => simp
  | cons c cs ih =>
    have hc := h c (by simp)
    simp [List.takeWhile_cons, hc, ih fun x hx => h x (by simp [hx])]

theorem dropWhile_append_all (p : Char → Bool) (l1 l2 : List Char)
    (h : ∀ c ∈ l1, p c = true) :
    (l1 ++ l2).dropWhile p = l2.dropWhile p := by
  induction l1 with
  | nil => simp
  | cons c cs ih =>
    simp only [List.cons_append, List.dropWhile_cons, h c (by simp)]
    exact ih fun x hx => h x (by simp [hx])

theorem parseNatChars_natToChars (n : Nat) (rest : List Char)
    (h : ∀ c, rest.head? = some c → c.isDigit = false) :
    parseNatChars (natToChars n ++ rest) = some (n, rest) := by
  have hrest_take : rest.takeWhile Char.isDigit = [] := by
    cases rest with
    | nil => rfl
    | cons c cs => simp [List.takeWhile_cons, h c rfl]
  have hrest_drop : rest.dropWhile Char.isDigit = rest := by
    cases rest with
    | nil => rfl
    | cons c cs => simp [List.dropWhile_cons, h c rfl]
  unfold parseNatChars
  rw [takeWhile_append_all _ _ _ (natToChars_all_digits n),
    dropWhile_append_all _ _ _ (natToChars_all_digits n),
    hrest_take, hrest_drop, List.append_nil]
  rw [if_neg (by simp [List.isEmpty_iff, natToChars_ne_nil n])]
  rw [natToChars_foldl]

theorem expectChars_append (pat rest : List Char) :
    expectChars pat (pat ++ rest) = some rest := by
  induction pat with
  | nil => rfl
  | cons p ps ih => simp [expectChars, ih]

theorem parseBoolChars_boolChars (b : Bool) (rest : List Char) :
    parseBoolChars (boolChars b ++ rest) = some (b, rest) := by
  cases b with
  | true =>
    show parseBoolChars ("true".toList ++ rest) = some (true, rest)
    unfold parseBoolChars
    rw [expectChars_append]
  | false =>
    show parseBoolChars ("false".toList ++ rest) = some (false, rest)
    have hne : expectChars "true".toList ("false".toList ++ rest) = none := by
      simp [expectChars]
    unfold parseBoolChars
    rw [hne, expectChars_append]

theorem parseConsentChars_charsOfConsent (c : ConsentState) :
    parseConsentChars (charsOfConsent c) = some c := by
  unfold charsOfConsent parseConsentChars
  simp only [List.append_assoc]
  rw [expectChars_append]
  simp only [Option.bind_eq_bind, Option.some_bind, parseBoolChars_boolChars]
  rw [expectChars_append]
  simp only [Option.some_bind, parseBoolChars_boolChars]
  rw [expectChars_append]
  simp only [Option.some_bind, parseBoolChars_boolChars]
  rw [expectChars_append]
  simp only [Option.some_bind, parseBoolChars_boolChars]
  rw [expectChars_append]
  simp only [Option.some_bind]
  rw [parseNatChars_natToChars c.timestamp _ (by intro x hx; simp at hx; subst hx; decide)]
  simp only [Option.some_bind]
  have hbrace : expectChars "\x7d".toList "\x7d".toList = some [] := by
    have h := expectChars_append "\x7d".toList []
    simpa using h
  rw [hbrace]
  simp

/-! ## Supporting lemmas: percent-encoding -/

theorem hexVal_hexDigitChar (n : Nat) (h : n < 16) :
    hexVal (hexDigitChar n) = some n := by
  interval_cases n <;> decide

theorem hexDigitChar_ne_eq (n : Nat) (h : n < 16) : hexDigitChar n ≠ '=' := by
  interval_cases n <;> decide

theorem char_toNat_lt (c : Char) : c.toNat < 1114112 := by
  rcases c.valid with h | h
  · have h1 : c.toNat < 55296 := h
    omega
  · exact h.2

theorem utf8Bytes_lt256 (c : Char) : ∀ b ∈ utf8Bytes c, b < 256 := by
  intro b hb
  have hc := char_toNat_lt c
  unfold utf8Bytes at hb
  split_ifs at hb <;> simp at hb <;> omega

theorem utf8Bytes_ascii (c : Char) (h : c.toNat < 128) :
    utf8Bytes c = [c.toNat] := by
  simp [utf8Bytes, h]

theorem uriUnreserved_ne (c : Char) (h : uriUnreserved c = true) :
    c ≠ '%' ∧ c ≠ '=' := by
  constructor <;> rintro rfl <;> exact absurd h (by decide)

theorem uriEncodeChars_ne_eq (l : List Char) :
    ∀ ch ∈ uriEncodeChars l, ch ≠ '=' := by
  intro ch hch
  induction l with
  | nil => simp [uriEncodeChars] at hch
  | cons c rest ih =>
    rw [uriEncodeChars] at hch
    rcases List.mem_append.mp hch with hl | hr
    · by_cases hu : uriUnreserved c
      · rw [if_pos hu] at hl
        simp at hl
        rw [hl]
        exact (uriUnreserved_ne c hu).2
      · rw [if_neg hu] at hl
        obtain ⟨b, hb, hmem⟩ := List.mem_flatMap.mp hl
        have hb256 := utf8Bytes_lt256 c b hb
        simp [percentByte] at hmem
        rcases hmem with rfl | rfl | rfl
        · decide
        · exact hexDigitChar_ne_eq _ (by omega)
        · exact hexDigitChar_ne_eq _ (by omega)
    · exact ih hr

theorem takeWhile_all (p : Char → Bool) (l : List Char)
    (h : ∀ c ∈ l, p c = true) : l.takeWhile p = l := by
  induction l with
  | nil => rfl
  | cons c cs ih =>
    have hc := h c (by simp)
    simp [List.takeWhile_cons, hc, ih fun x hx => h x (by simp [hx])]

theorem cookieSplitValue_encode (s : String) :
    cookieSplitValue (encodeURIComponent s) = encodeURIComponent s := by
  unfold cookieSplitValue encodeURIComponent
  rw [show (List.asString (uriEncodeChars s.toList)).toList =
      uriEncodeChars s.toList from rfl]
  rw [takeWhile_all _ _ fun c hc => by
    simp [bne_iff_ne]
    exact uriEncodeChars_ne_eq s.toList c hc]

theorem uriDecodeBytes_cons_of_ne (c : Char) (rest : List Char)
    (hc : c ≠ '%') :
    uriDecodeBytes (c :: rest) =
      (uriDecodeBytes rest).map (utf8Bytes c ++ ·) := by
  rw [uriDecodeBytes.eq_def]
  simp [hc]

theorem uriDecodeBytes_percent_cons (h1 h2 : Char) (rest : List Char) :
    uriDecodeBytes ('%' :: h1 :: h2 :: rest) =
      match hexVal h1, hexVal h2 with
      | some v1, some v2 => (uriDecodeBytes rest).map ((16 * v1 + v2) :: ·)
      | _, _ => none := by
  rw [uriDecodeBytes.eq_def]
  simp

theorem uriDecodeBytes_flatMap_percent (bs : List Nat) (tail : List Char)
    (h : ∀ b ∈ bs, b < 256) :
    uriDecodeBytes (bs.flatMap percentByte ++ tail) =
      (uriDecodeBytes tail).map (bs ++ ·) := by
  induction bs with
  | nil =>
    simp only [List.flatMap_nil, List.nil_append]
    cases uriDecodeBytes tail <;> simp
  | cons b bs ih =>
    have hb := h b (by simp)
    have hstep : percentByte b ++ (bs.flatMap percentByte ++ tail) =
        '%' :: hexDigitChar (b / 16) :: hexDigitChar (b % 16) ::
          (bs.flatMap percentByte ++ tail) := rfl
    simp only [List.flatMap_cons, List.append_assoc, hstep]
    rw [uriDecodeBytes_percent_cons,
      hexVal_hexDigitChar _ (by omega : b / 16 < 16),
      hexVal_hexDigitChar _ (by omega : b % 16 < 16),
      ih fun x hx => h x (by simp [hx])]
    have hbval : 16 * (b / 16) + b % 16 = b := by omega
    cases uriDecodeBytes tail <;> simp [hbval]

theorem uriDecodeBytes_encode (l : List Char) :
    uriDecodeBytes (uriEncodeChars l) = some (l.flatMap utf8Bytes) := by
  induction l with
  | nil => rfl
  | cons c rest ih =>
    by_cases hu : uriUnreserved c
    · have hc : c ≠ '%' := (uriUnreserved_ne c hu).1
      rw [uriEncodeChars, if_pos hu, List.singleton_append,
        uriDecodeBytes_cons_of_ne c _ hc, ih]
      simp [List.flatMap_cons]
    · rw [uriEncodeChars, if_neg hu,
        uriDecodeBytes_flatMap_percent _ _ (utf8Bytes_lt256 c), ih]
      simp [List.flatMap_cons]

theorem utf8DecodeLoop_ascii (fuel : Nat) (bs : List Nat)
    (hf : bs.length ≤ fuel) (h : ∀ b ∈ bs, b < 128) :
    utf8DecodeLoop fuel bs = some (bs.map Char.ofNat) := by
  induction fuel generalizing bs with
  | zero =>
    cases bs with
    | nil => rfl
    | cons b rest => simp at hf
  | succ fuel ih =>
    cases bs with
    | nil => rfl
    | cons b rest =>
      have hb := h b (by simp)
      have hone : utf8DecodeOne (b :: rest) = some (Char.ofNat b, rest) := by
        simp [utf8DecodeOne, hb]
      rw [utf8DecodeLoop, hone]
      show (utf8DecodeLoop fuel rest).map (Char.ofNat b :: ·) =
        some (List.map Char.ofNat (b :: rest))
      rw [ih rest (by simpa using hf) fun x hx => h x (by simp [hx])]
      rfl
      simp

theorem utf8Decode_ascii (bs : List Nat) (h : ∀ b ∈ bs, b < 128) :
    utf8Decode bs = some (bs.map Char.ofNat) :=
  utf8DecodeLoop_ascii bs.length bs le_rfl h

theorem flatMap_utf8_ascii (l : List Char) (h : ∀ c ∈ l, c.toNat < 128) :
    l.flatMap utf8Bytes = l.map Char.toNat := by
  induction l with
  | nil => rfl
  | cons c rest ih =>
    rw [List.flatMap_cons, utf8Bytes_ascii c (h c (by simp)),
      ih fun x hx => h x (by simp [hx])]
    rfl

theorem decodeURIComponent_encode (s : String)
    (h : ∀ c ∈ s.toList, c.toNat < 128) :
    decodeURIComponent (encodeURIComponent s) = some s := by
  unfold decodeURIComponent encodeURIComponent
  rw [show (List.asString (uriEncodeChars s.toList)).toList =
      uriEncodeChars s.toList from rfl]
  rw [uriDecodeBytes_encode, flatMap_utf8_ascii _ h]
  show (utf8Decode (List.map Char.toNat s.toList)).map List.asString = some s
  rw [utf8Decode_ascii _ (by
    intro b hb
    obtain ⟨c, hc, rfl⟩ := List.mem_map.mp hb
    exact h c hc)]
  rw [List.map_map]
  have hcomp : (Char.ofNat ∘ Char.toNat) = fun c : Char => Char.ofNat c.toNat := rfl
  rw [hcomp, List.map_congr_left fun c _ => Char.ofNat_toNat c, List.map_id']
  rfl

/-! ## Supporting lemmas: the full decode-of-encode round trip -/

theorem natToChars_toNat_lt (n : Nat) :
    ∀ c ∈ natToChars n, c.toNat < 128 := by
  intro c hc
  unfold natToChars at hc
  by_cases hn : n = 0
  · simp [hn] at hc
    simp [hc]
  · rw [if_neg hn, toDigitsRev_eq_digits n n le_rfl] at hc
    obtain ⟨d, hd, rfl⟩ := List.mem_map.mp hc
    have hd10 : d < 10 :=
      Nat.digits_lt_base (by norm_num) (List.mem_reverse.mp hd)
    rw [digitChar_toNat d hd10]
    omega

theorem boolChars_toNat_lt (b : Bool) :
    ∀ c ∈ boolChars b, c.toNat < 128 := by
  cases b <;> decide

theorem charsOfConsent_ascii (c : ConsentState) :
    ∀ ch ∈ charsOfConsent c, ch.toNat < 128 := by
  intro ch hch
  unfold charsOfConsent at hch
  simp only [List.append_assoc, List.mem_append] at hch
  rcases hch with h | h | h | h | h | h | h | h | h | h | h
  · exact (by decide : ∀ x ∈ "\x7b\"necessary\":".toList, x.toNat < 128) ch h
  · exact boolChars_toNat_lt _ ch h
  · exact (by decide : ∀ x ∈ ",\"analytics\":".toList, x.toNat < 128) ch h
  · exact boolChars_toNat_lt _ ch h
  · exact (by decide : ∀ x ∈ ",\"marketing\":".toList, x.toNat < 128) ch h
  · exact boolChars_toNat_lt _ ch h
  · exact (by decide : ∀ x ∈ ",\"preferences\":".toList, x.toNat < 128) ch h
  · exact boolChars_toNat_lt _ ch h
  · exact (by decide : ∀ x ∈ ",\"timestamp\":".toList, x.toNat < 128) ch h
  · exact natToChars_toNat_lt _ ch h
  · exact (by decide : ∀ x ∈ "\x7d".toList, x.toNat < 128) ch h

theorem parseConsent_stringify (c : ConsentState) :
    parseConsent (stringifyConsent c) = some c := by
  show parseConsentChars (stringifyConsent c).toList = some c
  show parseConsentChars (charsOfConsent c) = some c
  exact parseConsentChars_charsOfConsent c

theorem decodeConsentValue_encode (c : ConsentState) :
    decodeConsentValue (encodeURIComponent (stringifyConsent c)) = some c := by
  have h2 : decodeURIComponent (encodeURIComponent (stringifyConsent c)) =
      some (stringifyConsent c) :=
    decodeURIComponent_encode (stringifyConsent c)
      (fun ch hch => charsOfConsent_ascii c ch hch)
  unfold decodeConsentValue
  rw [cookieSplitValue_encode, h2, Option.some_bind, parseConsent_stringify c]

/-! ## Supporting lemmas: cookie jar and subscriber notification -/

theorem getCookie_setCookie (name v : String) (jar : CookieJar) :
    getCookie name (setCookie name v jar) = some v := by
  unfold setCookie
  by_cases hany : jar.any fun p => p.1 = name
  · rw [if_pos hany]
    unfold getCookie
    induction jar with
    | nil => simp at hany
    | cons hd tl ih =>
      by_cases hh : hd.1 = name
      · simp [List.find?, hh]
      · have htl : tl.any (fun p => p.1 = name) = true := by
          simp [List.any_cons, hh] at hany
          simpa using hany
        simp only [List.map_cons, if_neg hh, List.find?]
        rw [show (decide (hd.1 = name)) = false by simp [hh]]
        exact ih htl
  · rw [if_neg hany]
    unfold getCookie
    induction jar with
    | nil => simp [List.find?]
    | cons hd tl ih =>
      have hh : (hd.1 = name) = False := by
        simp only [List.any_cons, Bool.or_eq_true, decide_eq_true_eq] at hany
        push_neg at hany
        simp [hany.1]
      simp only [List.cons_append, List.find?]
      rw [show (decide (hd.1 = name)) = false by simp [hh]]
      exact ih (by
        simp only [List.any_cons, Bool.or_eq_true, decide_eq_true_eq] at hany
        push_neg at hany
        simpa using hany.2)

theorem notify_no_throw (env : CallbackEnv) (subs : List Nat)
    (r : ConsentState) (h : ∀ id ∈ subs, env.throws id r = false) :
    notifySubscribers env subs r = (subs.map (SEvent.invoke · r), false) := by
  induction subs with
  | nil => rfl
  | cons id rest ih =>
    rw [notifySubscribers, if_neg (by simp [h id (by simp)]),
      ih fun x hx => h x (by simp [hx])]
    simp

theorem notify_throw (env : CallbackEnv) (pre post : List Nat) (bad : Nat)
    (r : ConsentState)
    (hpre : ∀ id ∈ pre, env.throws id r = false)
    (hbad : env.throws bad r = true) :
    notifySubscribers env (pre ++ bad :: post) r =
      ((pre ++ [bad]).map (SEvent.invoke · r), true) := by
  induction pre with
  | nil => simp [notifySubscribers, hbad]
  | cons id rest ih =>
    rw [List.cons_append, notifySubscribers,
      if_neg (by simp [hpre id (by simp)]),
      ih fun x hx => hpre x (by simp [hx])]
    simp

/-! ## Supporting lemmas: the write operation and the subscriber set -/

theorem setConsent_eq (env : CallbackEnv) (st : ManagerState)
    (consent : ConsentState) (now : Nat) (hw : st.hasWindow = true) :
    setConsent env st consent now =
      ({ st with
          jar := setCookie st.cookieName
            (encodeURIComponent (stringifyConsent (finalConsentOf consent now)))
            st.jar,
          dataLayer := st.dataLayer ++
            [consentUpdateEvent (finalConsentOf consent now)] },
       SEvent.persist st.cookieName
           (encodeURIComponent (stringifyConsent (finalConsentOf consent now)))
         :: SEvent.signal (consentUpdateEvent (finalConsentOf consent now))
         :: (notifySubscribers env st.subscribers (finalConsentOf consent now)).1,
       (notifySubscribers env st.subscribers (finalConsentOf consent now)).2) := by
  unfold setConsent updateGoogleConsentMode
  rw [hw]
  simp

theorem notify_mem_invoke (env : CallbackEnv) (subs : List Nat)
    (r : ConsentState) (ev : SEvent)
    (h : ev ∈ (notifySubscribers env subs r).1) :
    ∃ id ∈ subs, ev = SEvent.invoke id r := by
  induction subs with
  | nil => simp [notifySubscribers] at h
  | cons id rest ih =>
    rw [notifySubscribers] at h
    by_cases ht : env.throws id r
    · rw [if_pos ht] at h
      simp at h
      exact ⟨id, by simp, h⟩
    · rw [if_neg ht] at h
      simp only [List.mem_cons] at h
      rcases h with rfl | h
      · exact ⟨id, by simp, rfl⟩
      · obtain ⟨j, hj, rfl⟩ := ih h
        exact ⟨j, by simp [hj], rfl⟩

theorem subscribe_mem (st : ManagerState) (f : Nat) :
    f ∈ (subscribe st f).subscribers := by
  unfold subscribe
  by_cases hc : st.subscribers.contains f
  · rw [if_pos hc]
    exact List.elem_iff.mp hc
  · rw [if_neg hc]
    simp

theorem subscribe_nodup (st : ManagerState) (f : Nat)
    (h : st.subscribers.Nodup) : (subscribe st f).subscribers.Nodup := by
  unfold subscribe
  by_cases hc : st.subscribers.contains f
  · rw [if_pos hc]
    exact h
  · rw [if_neg hc]
    simp only []
    rw [List.nodup_append]
    refine ⟨h, List.nodup_singleton f, ?_⟩
    intro a ha hb
    simp at hb
    subst hb
    exact hc (List.elem_iff.mpr ha)

theorem unsubscribe_not_mem (st : ManagerState) (f : Nat) :
    f ∉ (unsubscribe st f).subscribers := by
  unfold unsubscribe
  simp

theorem unsubscribe_idem (st : ManagerState) (f : Nat) :
    unsubscribe (unsubscribe st f) f = unsubscribe st f := by
  unfold unsubscribe
  simp [List.filter_filter]

theorem subscribe_idem (st : ManagerState) (f : Nat) :
    subscribe (subscribe st f) f = subscribe st f := by
  have hm := subscribe_mem st f
  unfold subscribe
  rw [if_pos (List.elem_iff.mpr (by
    unfold subscribe at hm
    exact hm))]

theorem trace_count_invoke (env : CallbackEnv) (st : ManagerState)
    (consent : ConsentState) (now : Nat) (f : Nat)
    (hw : st.hasWindow = true)
    (hnd : st.subscribers.Nodup)
    (hmem : f ∈ st.subscribers)
    (hnt : ∀ id ∈ st.subscribers,
      env.throws id (finalConsentOf consent now) = false) :
    (setConsent env st consent now).2.1.count
      (SEvent.invoke f (finalConsentOf consent now)) = 1 := by
  rw [setConsent_eq env st consent now hw,
    notify_no_throw env st.subscribers _ hnt]
  simp only [List.count_cons]
  rw [List.count_map_of_injective _ (fun id => SEvent.invoke id (finalConsentOf consent now))
    (fun a b hab => by simpa using hab) f]
  rw [List.count_eq_one_of_mem hnd hmem]
  simp

theorem setConsent_no_window (env : CallbackEnv) (st : ManagerState)
    (consent : ConsentState) (now : Nat) (hw : st.hasWindow = false) :
    setConsent env st consent now = (st, [], false) := by
  unfold setConsent
  rw [hw]
  rfl

theorem setConsent_invoke_necessary (env : CallbackEnv) (st : ManagerState)
    (consent : ConsentState) (now : Nat) (id : Nat) (rec : ConsentState)
    (h : SEvent.invoke id rec ∈ (setConsent env st consent now).2.1) :
    rec.necessary = true := by
  by_cases hw : st.hasWindow = true
  · rw [setConsent_eq env st consent now hw] at h
    simp only [List.mem_cons] at h
    rcases h with h | h | h
    · exact absurd h (by simp)
    · exact absurd h (by simp)
    · obtain ⟨j, _, hj⟩ := notify_mem_invoke env st.subscribers _ _ h
      simp only [SEvent.invoke.injEq] at hj
      rw [hj.2]
      rfl
  · rw [setConsent_no_window env st consent now
      (by revert hw; cases st.hasWindow <;> simp)] at h
    simp at h

theorem getConsentWithLog_found (st : ManagerState) (v : String)
    (hw : st.hasWindow = true)
    (hv : getCookie st.cookieName st.jar = some v) :
    getConsentWithLog st =
      match decodeConsentValue v with
      | none => (none, true)
      | some c => (some c, false) := by
  unfold getConsentWithLog
  rw [hw, hv]
  rfl

/-! ## The claims -/

/-- C1: for every input record, `setConsent` builds a full replacement
record equal to the input except that `necessary` is forced to `true` and
`timestamp` is set to the current time, and performs, in this order: the
cookie persist of the encoded final record, one `consent_update` signal
carrying the payload derived from the final record, then one synchronous
invocation of every currently registered subscriber with the final record
(stated for the run in which no subscriber callback throws, which is the
behaviour the claim describes). -/
theorem C1_write_order (env : CallbackEnv) (st : ManagerState)
    (consent : ConsentState) (now : Nat)
    (hw : st.hasWindow = true)
    (hnt : ∀ id ∈ st.subscribers,
      env.throws id { consent with necessary := true, timestamp := now } = false) :
    setConsent env st consent now =
      ({ st with
          jar := setCookie st.cookieName
            (encodeURIComponent (stringifyConsent
              { consent with necessary := true, timestamp := now })) st.jar,
          dataLayer := st.dataLayer ++
            [consentUpdateEvent { consent with necessary := true, timestamp := now }] },
       SEvent.persist st.cookieName
           (encodeURIComponent (stringifyConsent
             { consent with necessary := true, timestamp := now }))
         :: SEvent.signal (consentUpdateEvent
             { consent with necessary := true, timestamp := now })
         :: st.subscribers.map
             (fun id => SEvent.invoke id
               { consent with necessary := true, timestamp := now }),
       false) := by
  have hfc : finalConsentOf consent now =
      { consent with necessary := true, timestamp := now } := rfl
  rw [setConsent_eq env st consent now hw, hfc,
    notify_no_throw env st.subscribers _ hnt]

/-- Witness for C1: a concrete write with two non-throwing subscribers. -/
theorem C1_write_order_witness :
    setConsent quietEnv sampleState sampleConsent 5 =
      ({ sampleState with
          jar := setCookie sampleState.cookieName
            (encodeURIComponent (stringifyConsent
              { sampleConsent with necessary := true, timestamp := 5 }))
            sampleState.jar,
          dataLayer := sampleState.dataLayer ++
            [consentUpdateEvent { sampleConsent with necessary := true, timestamp := 5 }] },
       SEvent.persist sampleState.cookieName
           (encodeURIComponent (stringifyConsent
             { sampleConsent with necessary := true, timestamp := 5 }))
         :: SEvent.signal (consentUpdateEvent
             { sampleConsent with necessary := true, timestamp := 5 })
         :: sampleState.subscribers.map
             (fun id => SEvent.invoke id
               { sampleConsent with necessary := true, timestamp := 5 }),
       false) :=
  C1_write_order quietEnv sampleState sampleConsent 5 rfl (by decide)

set_option maxRecDepth 8000 in
/-- C2 is false as stated: in a concrete write with registered subscribers
`0` and `1` where callback `0` throws, the other callback `1` is never
invoked with the new record, and the exception does propagate to the
caller of the write. -/
theorem C2_counterexample :
    (setConsent throwingEnv sampleState sampleConsent 5).2.2 = true ∧
    SEvent.invoke 1 { sampleConsent with necessary := true, timestamp := 5 } ∉
      (setConsent throwingEnv sampleState sampleConsent 5).2.1 := by
  constructor
  · decide
  · decide

/-- C2 (amended): if a subscriber callback throws during a write, the
persistence of the record and the `consent_update` signal emission, which
precede notification, still take full effect and are not rolled back, and
the callbacks iterated before the throwing one (plus the throwing one
itself) are invoked with the new record; however the callbacks iterated
after the throwing one are not invoked, and the exception propagates to
the caller of the write. -/
theorem C2_callback_throw (env : CallbackEnv) (st : ManagerState)
    (consent : ConsentState) (now : Nat) (pre post : List Nat) (bad : Nat)
    (hw : st.hasWindow = true)
    (hsubs : st.subscribers = pre ++ bad :: post)
    (hpre : ∀ id ∈ pre,
      env.throws id { consent with necessary := true, timestamp := now } = false)
    (hbad : env.throws bad
      { consent with necessary := true, timestamp := now } = true) :
    setConsent env st consent now =
      ({ st with
          jar := setCookie st.cookieName
            (encodeURIComponent (stringifyConsent
              { consent with necessary := true, timestamp := now })) st.jar,
          dataLayer := st.dataLayer ++
            [consentUpdateEvent { consent with necessary := true, timestamp := now }] },
       SEvent.persist st.cookieName
           (encodeURIComponent (stringifyConsent
             { consent with necessary := true, timestamp := now }))
         :: SEvent.signal (consentUpdateEvent
             { consent with necessary := true, timestamp := now })
         :: (pre ++ [bad]).map
             (fun id => SEvent.invoke id
               { consent with necessary := true, timestamp := now }),
       true) := by
  have hfc : finalConsentOf consent now =
      { consent with necessary := true, timestamp := now } := rfl
  rw [setConsent_eq env st consent now hw, hfc, hsubs,
    notify_throw env pre post bad _ hpre hbad]

/-- Witness for the amended C2: callback 0 throws, callback 1 registered
after it is cut off. -/
theorem C2_callback_throw_witness :
    setConsent throwingEnv sampleState sampleConsent 5 =
      ({ sampleState with
          jar := setCookie sampleState.cookieName
            (encodeURIComponent (stringifyConsent
              { sampleConsent with necessary := true, timestamp := 5 }))
            sampleState.jar,
          dataLayer := sampleState.dataLayer ++
            [consentUpdateEvent { sampleConsent with necessary := true, timestamp := 5 }] },
       SEvent.persist sampleState.cookieName
           (encodeURIComponent (stringifyConsent
             { sampleConsent with necessary := true, timestamp := 5 }))
         :: SEvent.signal (consentUpdateEvent
             { sampleConsent with necessary := true, timestamp := 5 })
         :: ([] ++ [0]).map
             (fun id => SEvent.invoke id
               { sampleConsent with necessary := true, timestamp := 5 }),
       true) :=
  C2_callback_throw throwingEnv sampleState sampleConsent 5 [] [1] 0
    rfl rfl (by decide) (by decide)

/-- C3 is false as stated: the empty value and the value "2" both differ
from the "no" sentinel "0", yet `checkGeoConsent` returns `false` for
them, not `true` (the code tests for equality with the "yes" sentinel "1"
rather than difference from "0"). -/
theorem C3_counterexample :
    ("" : String) ≠ "0" ∧
    checkGeoConsent true [("geo-needs-consent", "")] = false ∧
    ("2" : String) ≠ "0" ∧
    checkGeoConsent true [("geo-needs-consent", "2")] = false := by
  refine ⟨by decide, by decide, by decide, by decide⟩

/-- C3 (amended): `checkGeoConsent` returns `true` when the geo signal
cookie is absent (and on the server, where there is no document); when the
cookie is present it returns `true` exactly when the extracted value
equals the "yes" sentinel `"1"`, so it returns `false` for the "no"
sentinel `"0"` and for every other value (empty or unexpected) as well. -/
theorem C3_geo_signal (jar : CookieJar) :
    checkGeoConsent false jar = true ∧
    (getCookie "geo-needs-consent" jar = none → checkGeoConsent true jar = true) ∧
    (∀ v : String, getCookie "geo-needs-consent" jar = some v →
      checkGeoConsent true jar = (cookieSplitValue v == "1")) := by
  refine ⟨rfl, fun h => ?_, fun v h => ?_⟩
  · simp [checkGeoConsent, h]
  · simp [checkGeoConsent, h]

/-- Witness for the amended C3 at concrete jars. -/
theorem C3_geo_signal_witness :
    checkGeoConsent true [] = true ∧
    checkGeoConsent true [("geo-needs-consent", "0")] =
      (cookieSplitValue "0" == "1") := by
  constructor
  · exact (C3_geo_signal []).2.1 (by decide)
  · exact (C3_geo_signal [("geo-needs-consent", "0")]).2.2 "0" (by decide)

/-- C4: for every input record passed to `setConsent` (hence also for the
fixed records `acceptAll` and `rejectAll` pass to it), every record the
store emits to subscribers has `necessary = true`, the persisted cookie
value decodes to a record with `necessary = true`, and the emitted signal
is the `consent_update` event of such a record — regardless of the
`necessary` value in the input. -/
theorem C4_necessary_invariant (env : CallbackEnv) (st : ManagerState)
    (consent : ConsentState) (now : Nat) :
    (∀ id rec, SEvent.invoke id rec ∈ (setConsent env st consent now).2.1 →
      rec.necessary = true) ∧
    (∀ name v, SEvent.persist name v ∈ (setConsent env st consent now).2.1 →
      ∃ rec, decodeConsentValue v = some rec ∧ rec.necessary = true) ∧
    (∀ e, SEvent.signal e ∈ (setConsent env st consent now).2.1 →
      ∃ rec, rec.necessary = true ∧ e = consentUpdateEvent rec) ∧
    (∀ id rec, SEvent.invoke id rec ∈ (acceptAll env st now).2.1 →
      rec.necessary = true) ∧
    (∀ id rec, SEvent.invoke id rec ∈ (rejectAll env st now).2.1 →
      rec.necessary = true) := by
  refine ⟨fun id rec h => setConsent_invoke_necessary env st consent now id rec h,
    fun name v h => ?_, fun e h => ?_,
    fun id rec h => setConsent_invoke_necessary env st _ now id rec h,
    fun id rec h => setConsent_invoke_necessary env st _ now id rec h⟩
  · by_cases hw : st.hasWindow = true
    · rw [setConsent_eq env st consent now hw] at h
      simp only [List.mem_cons] at h
      rcases h with h | h | h
      · simp only [SEvent.persist.injEq] at h
        refine ⟨finalConsentOf consent now, ?_, rfl⟩
        rw [h.2]
        exact decodeConsentValue_encode (finalConsentOf consent now)
      · exact absurd h (by simp)
      · obtain ⟨j, _, hj⟩ := notify_mem_invoke env st.subscribers _ _ h
        exact absurd hj (by simp)
    · rw [setConsent_no_window env st consent now
        (by revert hw; cases st.hasWindow <;> simp)] at h
      simp at h
  · by_cases hw : st.hasWindow = true
    · rw [setConsent_eq env st consent now hw] at h
      simp only [List.mem_cons] at h
      rcases h with h | h | h
      · exact absurd h (by simp)
      · simp only [SEvent.signal.injEq] at h
        exact ⟨finalConsentOf consent now, rfl, h⟩
      · obtain ⟨j, _, hj⟩ := notify_mem_invoke env st.subscribers _ _ h
        exact absurd hj (by simp)
    · rw [setConsent_no_window env st consent now
        (by revert hw; cases st.hasWindow <;> simp)] at h
      simp at h

/-- Witness for C4: in the concrete write of `sampleConsent` (whose input
`necessary` is `false`), the record delivered to subscriber 0 has
`necessary = true`. -/
theorem C4_necessary_invariant_witness :
    ({ sampleConsent with necessary := true, timestamp := 5 } :
      ConsentState).necessary = true := by
  have h := (C4_necessary_invariant quietEnv sampleState sampleConsent 5).1
    0 { sampleConsent with necessary := true, timestamp := 5 } (by decide)
  exact h

/-- C5: `isRegulatedRegion` implements exactly the spec's classification —
absent or empty country is regulated; else membership of the flat
country-level list (GDPR plus BR, CA, ZA); else a sub-national rule whose
country matches and whose region list contains the region (empty string
when absent); else unregulated — and takes the claimed values on the five
sample inputs. -/
theorem C5_isRegulated :
    (∀ country region,
      isRegulatedRegion country region = specIsRegulated country region) ∧
    isRegulatedRegion none none = true ∧
    isRegulatedRegion (some "DE") none = true ∧
    isRegulatedRegion (some "US") (some "CA") = true ∧
    isRegulatedRegion (some "US") (some "TX") = false ∧
    isRegulatedRegion (some "ZZ") none = false :=
  ⟨isRegulatedRegion_agrees_spec, by decide, by decide, by decide,
    by decide, by decide⟩

theorem getConsentJsWithLog_found (st : ManagerState) (v : String)
    (hw : st.hasWindow = true)
    (hv : getCookie st.cookieName st.jar = some v) :
    getConsentJsWithLog st =
      match decodeConsentValueJs v with
      | none => (none, true)
      | some j => if j.isNull then (none, false) else (some j, false) := by
  unfold getConsentJsWithLog
  rw [hw, hv]
  rfl

/-- C6 is false as stated: the stored value `{"a":1}` cannot be decoded
as a ConsentRecord (the canonical record decode rejects it), yet the
unchecked `as ConsentState` cast performs no runtime validation, so
`getConsent` returns the parsed object rather than null, nothing is
logged, and `hasConsent` is true — not false as the claim requires. -/
theorem C6_counterexample :
    decodeConsentValue "\x7b\"a\":1\x7d" = none ∧
    (getConsentJs junkState).isSome = true ∧
    (getConsentJsWithLog junkState).2 = false ∧
    hasConsentJs junkState = true := by
  refine ⟨by decide, by decide, by decide, by decide⟩

/-- C6 (amended): `getConsent` returns null exactly as if no value were
stored, and logs the parse error, precisely when the stored value's
decode pipeline throws (an invalid percent-escape or invalid JSON) — and
it never throws to its caller (decoding is total in the embedding); in
that situation `hasConsent` and the three category accessors all return
false. A stored value that parses as valid JSON, however, is returned
without any shape validation or logging: when the parsed value is not
JSON null, `getConsent` is non-null and `hasConsent` is true. -/
theorem C6_parse_failure (st : ManagerState) (v : String)
    (hw : st.hasWindow = true)
    (hv : getCookie st.cookieName st.jar = some v) :
    (decodeConsentValueJs v = none →
      getConsentJs st = none ∧
      (getConsentJsWithLog st).2 = true ∧
      hasConsentJs st = false ∧
      hasAnalyticsConsentJs st = false ∧
      hasMarketingConsentJs st = false ∧
      hasPreferencesConsentJs st = false) ∧
    (∀ j, decodeConsentValueJs v = some j → j.isNull = false →
      getConsentJs st = some j ∧
      (getConsentJsWithLog st).2 = false ∧
      hasConsentJs st = true) := by
  constructor
  · intro hbad
    have hlog : getConsentJsWithLog st = (none, true) := by
      rw [getConsentJsWithLog_found st v hw hv, hbad]
    have hget : getConsentJs st = none := by
      unfold getConsentJs
      rw [hlog]
    refine ⟨hget, by rw [hlog], ?_, ?_, ?_, ?_⟩
    · unfold hasConsentJs
      rw [hget]
      rfl
    · unfold hasAnalyticsConsentJs
      rw [hget]
    · unfold hasMarketingConsentJs
      rw [hget]
    · unfold hasPreferencesConsentJs
      rw [hget]
  · intro j hj hnn
    have hlog : getConsentJsWithLog st = (some j, false) := by
      rw [getConsentJsWithLog_found st v hw hv, hj]
      simp [hnn]
    have hget : getConsentJs st = some j := by
      unfold getConsentJs
      rw [hlog]
    refine ⟨hget, by rw [hlog], ?_⟩
    unfold hasConsentJs
    rw [hget]
    rfl

/-- Witness for the amended C6: the stored value "garbage" is invalid
JSON, so the dynamic read fails soft with a log. -/
theorem C6_parse_failure_witness :
    getConsentJs malformedState = none ∧
    (getConsentJsWithLog malformedState).2 = true ∧
    hasConsentJs malformedState = false ∧
    hasAnalyticsConsentJs malformedState = false ∧
    hasMarketingConsentJs malformedState = false ∧
    hasPreferencesConsentJs malformedState = false :=
  (C6_parse_failure malformedState "garbage" rfl (by decide)).1 rfl

/-- C7: reading immediately after a write returns exactly the written
record — the input with `necessary` forced to `true` and `timestamp` set
to the write time (hence `≥` the time the write was invoked): the
encode-to-storage / decode-from-storage pair is a round trip on the final
record. -/
theorem C7_write_read_roundtrip (env : CallbackEnv) (st : ManagerState)
    (consent : ConsentState) (now : Nat) (hw : st.hasWindow = true) :
    getConsent (setConsent env st consent now).1 =
      some { consent with necessary := true, timestamp := now } ∧
    now ≤ ({ consent with necessary := true, timestamp := now } :
      ConsentState).timestamp := by
  refine ⟨?_, le_refl now⟩
  rw [setConsent_eq env st consent now hw]
  unfold getConsent
  rw [getConsentWithLog_found _
      (encodeURIComponent (stringifyConsent (finalConsentOf consent now)))
      (by exact hw) (by exact getCookie_setCookie st.cookieName _ st.jar),
    decodeConsentValue_encode (finalConsentOf consent now)]
  rfl

/-- Witness for C7 at a concrete write. -/
theorem C7_write_read_roundtrip_witness :
    getConsent (setConsent quietEnv sampleState sampleConsent 7).1 =
      some { sampleConsent with necessary := true, timestamp := 7 } ∧
    7 ≤ ({ sampleConsent with necessary := true, timestamp := 7 } :
      ConsentState).timestamp :=
  C7_write_read_roundtrip quietEnv sampleState sampleConsent 7 rfl

theorem subscribe_hasWindow (st : ManagerState) (f : Nat) :
    (subscribe st f).hasWindow = st.hasWindow := by
  unfold subscribe
  split <;> rfl

/-- C8: the SignalingPayload derived from a record grants `ad_storage`,
`ad_user_data` and `ad_personalization` from `marketing`,
`analytics_storage` from `analytics`, `functionality_storage` and
`personalization_storage` from `preferences` (each `"granted"` iff the
source boolean is true, else `"denied"`), with `security_storage`
constantly `"granted"`; in particular a record with `analytics = true`,
`marketing = false`, `preferences = true` yields the claimed payload. -/
theorem C8_signaling_payload :
    (∀ c : ConsentState,
      (consentParams c).ad_storage = (if c.marketing then "granted" else "denied") ∧
      (consentParams c).ad_user_data = (if c.marketing then "granted" else "denied") ∧
      (consentParams c).ad_personalization = (if c.marketing then "granted" else "denied") ∧
      (consentParams c).analytics_storage = (if c.analytics then "granted" else "denied") ∧
      (consentParams c).functionality_storage = (if c.preferences then "granted" else "denied") ∧
      (consentParams c).personalization_storage = (if c.preferences then "granted" else "denied") ∧
      (consentParams c).security_storage = "granted") ∧
    (∀ (n : Bool) (t : Nat),
      consentParams
        { necessary := n, analytics := true, marketing := false,
          preferences := true, timestamp := t } =
        { ad_storage := "denied", ad_user_data := "denied",
          ad_personalization := "denied", analytics_storage := "granted",
          functionality_storage := "granted",
          personalization_storage := "granted",
          security_storage := "granted" }) := by
  constructor
  · intro c
    exact ⟨rfl, rfl, rfl, rfl, rfl, rfl, rfl⟩
  · intro n t
    rfl

/-- C9: after `subscribe f`, a single write invokes `f` exactly once with
the new record; after running the unsubscribe handle, a subsequent write
does not invoke `f`; running the handle again is a no-op (the state is
unchanged) that raises no error, and unsubscribing removes no other
registration. -/
theorem C9_subscription_lifecycle (env : CallbackEnv) (st : ManagerState)
    (f : Nat) (consent : ConsentState) (now : Nat)
    (hw : st.hasWindow = true)
    (hnd : st.subscribers.Nodup)
    (hnt : ∀ id ∈ (subscribe st f).subscribers,
      env.throws id (finalConsentOf consent now) = false) :
    ((setConsent env (subscribe st f) consent now).2.1.count
      (SEvent.invoke f (finalConsentOf consent now)) = 1) ∧
    (SEvent.invoke f (finalConsentOf consent now) ∉
      (setConsent env (unsubscribe (subscribe st f) f) consent now).2.1) ∧
    (unsubscribe (unsubscribe (subscribe st f) f) f =
      unsubscribe (subscribe st f) f) ∧
    (∀ g, g ≠ f →
      (g ∈ (unsubscribe st f).subscribers ↔ g ∈ st.subscribers)) := by
  have hw1 : (subscribe st f).hasWindow = true := by
    rw [subscribe_hasWindow]
    exact hw
  refine ⟨?_, ?_, unsubscribe_idem _ f, ?_⟩
  · exact trace_count_invoke env (subscribe st f) consent now f hw1
      (subscribe_nodup st f hnd) (subscribe_mem st f) hnt
  · intro hmem
    have hw2 : (unsubscribe (subscribe st f) f).hasWindow = true := hw1
    rw [setConsent_eq env _ consent now hw2] at hmem
    simp only [List.mem_cons] at hmem
    rcases hmem with h | h | h
    · exact absurd h (by simp)
    · exact absurd h (by simp)
    · obtain ⟨j, hj, hje⟩ := notify_mem_invoke env _ _ _ h
      simp only [SEvent.invoke.injEq] at hje
      rw [← hje.1] at hj
      exact absurd hj (unsubscribe_not_mem (subscribe st f) f)
  · intro g hg
    unfold unsubscribe
    simp [hg]

/-- Witness for C9 at a concrete subscription. -/
theorem C9_subscription_lifecycle_witness :
    ((setConsent quietEnv (subscribe emptyState 3) sampleConsent 5).2.1.count
      (SEvent.invoke 3 (finalConsentOf sampleConsent 5)) = 1) ∧
    (SEvent.invoke 3 (finalConsentOf sampleConsent 5) ∉
      (setConsent quietEnv (unsubscribe (subscribe emptyState 3) 3)
        sampleConsent 5).2.1) ∧
    (unsubscribe (unsubscribe (subscribe emptyState 3) 3) 3 =
      unsubscribe (subscribe emptyState 3) 3) := by
  have h := C9_subscription_lifecycle quietEnv emptyState 3 sampleConsent 5
    rfl (by decide) (by decide)
  exact ⟨h.1, h.2.1, h.2.2.1⟩

/-- C10: because the subscriber set is keyed by callback identity,
subscribing the same callback twice leaves a single registration (indeed
the state is unchanged by the second call): a write still invokes the
callback exactly once, either of the two (identical) unsubscribe handles
removes the callback entirely, and invoking the other handle afterwards
has no effect. -/
theorem C10_duplicate_subscribe (env : CallbackEnv) (st : ManagerState)
    (f : Nat) (consent : ConsentState) (now : Nat)
    (hw : st.hasWindow = true)
    (hnd : st.subscribers.Nodup)
    (hnt : ∀ id ∈ (subscribe st f).subscribers,
      env.throws id (finalConsentOf consent now) = false) :
    (subscribe (subscribe st f) f = subscribe st f) ∧
    ((setConsent env (subscribe (subscribe st f) f) consent now).2.1.count
      (SEvent.invoke f (finalConsentOf consent now)) = 1) ∧
    (f ∉ (unsubscribe (subscribe (subscribe st f) f) f).subscribers) ∧
    (unsubscribe (unsubscribe (subscribe (subscribe st f) f) f) f =
      unsubscribe (subscribe (subscribe st f) f) f) := by
  have hw1 : (subscribe st f).hasWindow = true := by
    rw [subscribe_hasWindow]
    exact hw
  have hidem := subscribe_idem st f
  refine ⟨hidem, ?_, ?_, ?_⟩
  · rw [hidem]
    exact trace_count_invoke env (subscribe st f) consent now f hw1
      (subscribe_nodup st f hnd) (subscribe_mem st f) hnt
  · rw [hidem]
    exact unsubscribe_not_mem (subscribe st f) f
  · rw [hidem]
    exact unsubscribe_idem (subscribe st f) f

/-- Witness for C10 at a concrete duplicate subscription. -/
theorem C10_duplicate_subscribe_witness :
    (subscribe (subscribe emptyState 4) 4 = subscribe emptyState 4) ∧
    ((setConsent quietEnv (subscribe (subscribe emptyState 4) 4)
        sampleConsent 5).2.1.count
      (SEvent.invoke 4 (finalConsentOf sampleConsent 5)) = 1) ∧
    (4 ∉ (unsubscribe (subscribe (subscribe emptyState 4) 4) 4).subscribers) ∧
    (unsubscribe (unsubscribe (subscribe (subscribe emptyState 4) 4) 4) 4 =
      unsubscribe (subscribe (subscribe emptyState 4) 4) 4) :=
  C10_duplicate_subscribe quietEnv emptyState 4 sampleConsent 5
    rfl (by decide) (by decide)
